import Mathlib

/-
Verification development for the hama_proxy aggregation gateway
(src/src/server.ts).  The definitions below are a shallow embedding of the
pure logic of the gateway: JavaScript strings are Lean `String`s, JSON
values are the inductive `JSValue`, JS `Map`s in insertion order are Lean
lists, and the asynchronous parts (connect fan-out, the schema-bypass
interceptor) are embedded as explicit state-passing over the sequence of
events the event loop delivers.
-/

namespace HamaProxy

/-! ### JavaScript string primitives

`String.prototype.split(sep)` with a single-character separator, and
`String.prototype.includes(c)`.  `splitCharList` matches JS semantics:
`"".split(":") = [""]`, `"a:".split(":") = ["a", ""]`. -/

def splitCharList (sep : Char) : List Char → List (List Char)
  | [] => [[]]
  | c :: rest =>
      if c = sep then [] :: splitCharList sep rest
      else
        match splitCharList sep rest with
        | [] => [[c]]
        | h :: t => (c :: h) :: t

/-- JS `s.split(sep)` for a one-character separator. -/
def jsSplit (sep : Char) (s : String) : List String :=
  (splitCharList sep s.data).map String.mk

/-- JS `s.includes(c)` for a one-character needle. -/
def containsChar (s : String) (c : Char) : Bool :=
  s.data.contains c

/-- JS destructuring `[a, b] = name.split(':', 2)`.  A `limit` argument to
JS `split` truncates the full split to its first `limit` segments; it does
not stop splitting, so any text after the second separator is dropped. -/
def parseQualified (name : String) : String × String :=
  let parts := (jsSplit ':' name).take 2
  (parts.getD 0 "", parts.getD 1 "")

/-- Modelled from the spec: split a qualified name at the FIRST occurrence
of the separator only, keeping the complete remainder as the local name
("first occurrence splits name from server, consistent with how it was
produced during aggregation"). -/
def splitAtFirstChar (sep : Char) : List Char → List Char × List Char
  | [] => ([], [])
  | c :: rest =>
      if c = sep then ([], rest)
      else
        let p := splitAtFirstChar sep rest
        (c :: p.1, p.2)

/-- Modelled from the spec: the qualified-name split the spec describes,
server name before the first `:` and the untouched local name after it. -/
def splitOnFirst (name : String) : String × String :=
  let p := splitAtFirstChar ':' name.data
  (String.mk p.1, String.mk p.2)

/-! ### JSON values and `JSON.stringify(v, null, 2)`

`JSValue` models the JavaScript values a backend reply can take.  `undefined`
is JavaScript `undefined`; it only arises from a missed property lookup
(decoded JSON replies never contain it), so `stringifyVal` renders it like
`null` (its JS behaviour inside arrays) without modelling the
omit-undefined-property rule for objects. -/

inductive JSValue where
  | undefined
  | null
  | str (s : String)
  | num (n : Int)
  | bool (b : Bool)
  | arr (xs : List JSValue)
  | obj (fields : List (String × JSValue))

def escapeChar (c : Char) : String :=
  if c = '"' then "\\\""
  else if c = '\\' then "\\\\"
  else if c = '\n' then "\\n"
  else if c = '\r' then "\\r"
  else if c = '\t' then "\\t"
  else String.singleton c

def quoteJson (s : String) : String :=
  "\"" ++ String.join (s.data.map escapeChar) ++ "\""

/-- Two spaces of indentation per nesting level, as produced by
`JSON.stringify(v, null, 2)`. -/
def spaces : Nat → String
  | 0 => ""
  | n + 1 => "  " ++ spaces n

mutual

/-- `JSON.stringify(v, null, 2)` at nesting depth `d`. -/
def stringifyVal : JSValue → Nat → String
  | .undefined, _ => "null"
  | .null, _ => "null"
  | .bool b, _ => cond b "true" "false"
  | .num n, _ => toString n
  | .str s, _ => quoteJson s
  | .arr [], _ => "[]"
  | .arr (x :: xs), d =>
      "[\n" ++ String.intercalate ",\n" (stringifyItems (x :: xs) (d + 1)) ++
        "\n" ++ spaces d ++ "]"
  | .obj [], _ => "\x7b\x7d"
  | .obj (f :: fs), d =>
      "\x7b\n" ++ String.intercalate ",\n" (stringifyFields (f :: fs) (d + 1)) ++
        "\n" ++ spaces d ++ "\x7d"

def stringifyItems : List JSValue → Nat → List String
  | [], _ => []
  | v :: rest, d => (spaces d ++ stringifyVal v d) :: stringifyItems rest d

def stringifyFields : List (String × JSValue) → Nat → List String
  | [], _ => []
  | (k, v) :: rest, d =>
      (spaces d ++ quoteJson k ++ ": " ++ stringifyVal v d) :: stringifyFields rest d

end

/-- JS property access `v[k]`: a missing key, or access on a non-object,
yields `undefined`.  (String and array primitives have no properties named
after any key the gateway looks up.) -/
def jsGet (v : JSValue) (k : String) : JSValue :=
  match v with
  | .obj fs =>
      match fs.find? (fun p => p.1 == k) with
      | some p => p.2
      | none => .undefined
  | _ => .undefined

/-- JS `String(v)` for the scalar fallback of the normalizer (only
numbers and booleans can reach it). -/
def jsToString : JSValue → String
  | .undefined => "undefined"
  | .null => "null"
  | .str s => s
  | .num n => toString n
  | .bool b => cond b "true" "false"
  | .arr _ => ""
  | .obj _ => "[object Object]"

/-! ### Response-normalization engine (`callTool`, server.ts lines 555-629) -/

/-- The canonical MCP envelope with a single text item, as built by every
fallback branch of the normalizer. -/
def textEnvelope (t : String) : JSValue :=
  .obj [("content", .arr [.obj [("type", .str "text"), ("text", .str t)]])]

/-- JS truthiness test used by `if (!result)`. -/
def isFalsy : JSValue → Bool
  | .undefined => true
  | .null => true
  | .str s => s = ""
  | .num n => n = 0
  | .bool b => !b
  | _ => false

/-- `result.content && Array.isArray(result.content) && result.content.length > 0`. -/
def isCanonical (r : JSValue) : Bool :=
  match jsGet r "content" with
  | .arr xs => !xs.isEmpty
  | _ => false

/-- The ordered priority list of text-bearing field names scanned by the
normalizer (server.ts lines 578-582). -/
def textFields : List String :=
  ["text", "content", "message", "result", "output",
   "transcript", "description", "summary", "response",
   "value", "body", "data"]

/-- One iteration of the field loop: a string value is used verbatim, a
`typeof === 'object'` value (array or object) is pretty-printed; every
other value — absent, `null`, number, boolean — leaves the loop running
(the source only `break`s in the string and object branches). -/
def strOrStructText : JSValue → Option String
  | .str s => some s
  | .arr xs => some (stringifyVal (.arr xs) 0)
  | .obj fs => some (stringifyVal (.obj fs) 0)
  | _ => none

/-- The field-priority loop of the normalizer. -/
def scanFields (r : JSValue) : List String → Option String
  | [] => none
  | f :: rest =>
      match strOrStructText (jsGet r f) with
      | some s => some s
      | none => scanFields r rest

/-- Text chosen for a structured (`typeof === 'object'`) reply: the field
loop's pick, except that an empty pick — no field matched, or the matched
field held the empty string — falls back to pretty-printing the whole
object (`if (!textContent) textContent = JSON.stringify(result, null, 2)`;
the empty string is falsy in JS). -/
def normalizedObjText (r : JSValue) : String :=
  let textContent := (scanFields r textFields).getD ""
  if textContent = "" then stringifyVal r 0 else textContent

def normalizeObj (r : JSValue) : JSValue :=
  textEnvelope (normalizedObjText r)

/-- The full normalization cascade applied to a tool-call reply
(server.ts lines 555-629): falsy replies, already-canonical envelopes,
strings, structured values, and remaining scalars. -/
def normalize (result : JSValue) : JSValue :=
  if isFalsy result then textEnvelope "도구 실행 완료 (응답 없음)"
  else if isCanonical result then result
  else
    match result with
    | .str s => textEnvelope s
    | .obj fs => normalizeObj (.obj fs)
    | .arr xs => normalizeObj (.arr xs)
    | other => textEnvelope (jsToString other)

/-- Extracts the text of a single-text-item canonical envelope; used to
separate distinct normalizer outputs without deciding `JSValue` equality. -/
def envText : JSValue → Option String
  | .obj [("content", .arr [.obj [("type", .str "text"), ("text", .str t)]])] => some t
  | _ => none

/-! ### Backend connection registry (`HamaClientConnection`, `hamaConnections`)

`hamaConnections` is a JS `Map` mutated only by the single-threaded event
loop; it is embedded as a list in insertion (= registration) order.
Capability descriptors are reduced to the one field the routing layer
inspects (`tool.name`, `prompt.name`, `resource.uri`). -/

structure Conn where
  serverName : String
  active : Bool
  tools : List String
  prompts : List String
  resources : List String
deriving Repr, DecidableEq

/-- JS `Map.prototype.get` on the registry: keys are unique in a real
`Map`, so the first entry with the name is the entry. -/
def mapGet (conns : List Conn) (name : String) : Option Conn :=
  conns.find? (fun c => c.serverName == name)

/-- `getUnifiedTools` (server.ts lines 439-453): every active connection
contributes its cached tools, stamped with the owning server name and the
qualified name built with the `:` separator.  Entries are
`(serverName, localName, fullName)`. -/
def getUnifiedTools (conns : List Conn) : List (String × String × String) :=
  conns.foldl
    (fun acc c =>
      if c.active then
        acc ++ c.tools.map (fun t => (c.serverName, t, c.serverName ++ ":" ++ t))
      else acc) []

/-- `getUnifiedResources` (server.ts lines 477-491): entries are
`(serverName, uri, fullUri)` with `fullUri = serverName:uri`. -/
def getUnifiedResources (conns : List Conn) : List (String × String × String) :=
  conns.foldl
    (fun acc c =>
      if c.active then
        acc ++ c.resources.map (fun u => (c.serverName, u, c.serverName ++ ":" ++ u))
      else acc) []

/-- The two client-visible failures of name resolution: the thrown
`도구를 찾을 수 없습니다` (NotFound) and `서버에 연결할 수 없습니다`
(ServerUnavailable) errors.  Both are thrown `Error`s caught by the
request handler, so in the embedding resolution is `Except`-valued. -/
inductive ResolveError where
  | notFound
  | serverUnavailable
deriving Repr, DecidableEq

/-- Name resolution performed by `callTool` (server.ts lines 496-521):
a name containing `:` is parsed with `split(':', 2)`; otherwise the first
active connection (in registration order) whose cached tool list contains
the name wins; then the target server is looked up again in the registry
and must be active.  The returned pair is the dispatch target
`(serverName, actualToolName)` handed to `connection.client.callTool`. -/
def resolveToolTarget (conns : List Conn) (toolName : String) :
    Except ResolveError (String × String) :=
  if containsChar toolName ':' then
    let p := parseQualified toolName
    match mapGet conns p.1 with
    | some c => if c.active then .ok (c.serverName, p.2) else .error .serverUnavailable
    | none => .error .serverUnavailable
  else
    match conns.find? (fun c => c.active && c.tools.contains toolName) with
    | none => .error .notFound
    | some c =>
        match mapGet conns c.serverName with
        | some c2 =>
            if c2.active then .ok (c2.serverName, toolName)
            else .error .serverUnavailable
        | none => .error .serverUnavailable

/-- Name resolution performed by `readResource` (server.ts lines 734-758),
identical in structure to `resolveToolTarget` but matching cached resource
URIs. -/
def resolveResourceTarget (conns : List Conn) (resourceUri : String) :
    Except ResolveError (String × String) :=
  if containsChar resourceUri ':' then
    let p := parseQualified resourceUri
    match mapGet conns p.1 with
    | some c => if c.active then .ok (c.serverName, p.2) else .error .serverUnavailable
    | none => .error .serverUnavailable
  else
    match conns.find? (fun c => c.active && c.resources.contains resourceUri) with
    | none => .error .notFound
    | some c =>
        match mapGet conns c.serverName with
        | some c2 =>
            if c2.active then .ok (c2.serverName, resourceUri)
            else .error .serverUnavailable
        | none => .error .serverUnavailable

/-! ### Connect-all fan-out (`connectAllServers`, server.ts lines 243-330)

Each backend's connect attempt happens concurrently; the attempt's
interactions with the outside world (spawn + handshake, then the three
capability listings) are embedded as an outcome oracle per backend.
`Promise.allSettled` joins on collective completion, so the registry
collects exactly the successful attempts; the claims proved below do not
depend on completion order, which the list order stands in for. -/

inductive ListingOutcome where
  | ok (items : List String)
  | failed
deriving Repr, DecidableEq

inductive ConnectOutcome where
  | connectFail
  | connected (tools prompts resources : ListingOutcome)
deriving Repr, DecidableEq

def listingOrEmpty : ListingOutcome → List String
  | .ok items => items
  | .failed => []

/-- `connectToServer`: a spawn/handshake failure throws (caught and logged
by `connectAllServers`, leaving the backend unregistered); after a
successful handshake each listing independently defaults to `[]` on
failure and the connection is registered with `active: true`. -/
def connectToServer (name : String) (outcome : ConnectOutcome) : Option Conn :=
  match outcome with
  | .connectFail => none
  | .connected t p r =>
      some ⟨name, true, listingOrEmpty t, listingOrEmpty p, listingOrEmpty r⟩

/-- `connectAllServers`: every configured backend is attempted, each
attempt wrapped in its own try/catch, and the registry receives exactly
the successes. -/
def connectAllServers (cfg : List (String × ConnectOutcome)) : List Conn :=
  cfg.filterMap (fun e => connectToServer e.1 e.2)

/-! ### `callTool` reply handling (server.ts lines 522-630)

After dispatch, the validated call either returns a reply, fails schema
(Zod) validation, or fails otherwise; on a Zod failure the bypass
`callToolDirectly` is attempted and its own failure is absorbed into a
canonical text result quoting the original validation error. -/

inductive CallOutcome where
  | ok (v : JSValue)
  | zodError (msg : String)
  | otherError (msg : String)

inductive DirectOutcome where
  | ok (raw : JSValue)
  | errReply (msg : String)
  | timeout

/-- The reply-handling tail of `callTool`: a successful reply (validated
or recovered raw) flows through `normalize`; a failed recovery is
downgraded to a canonical text result; non-Zod errors are re-thrown. -/
def callToolResult (actualToolName : String) (call : CallOutcome)
    (direct : DirectOutcome) : Except String JSValue :=
  match call with
  | .ok v => .ok (normalize v)
  | .otherError m => .error m
  | .zodError m =>
      match direct with
      | .ok raw => .ok (normalize raw)
      | _ =>
          .ok (.obj [("content", .arr [.obj
            [("type", .str "text"),
             ("text", .str ("도구 실행 오류: MCP 응답 형식 문제 (" ++ actualToolName ++
               ")\n오류 세부사항: " ++ m))]])])

/-! ### Schema-bypass interceptor (`callToolDirectly`, server.ts lines 636-697)

After the request envelope is sent on the raw transport, the installed
interceptor, the pending 30-second timer and the pending promise evolve
with the messages the event loop delivers.  `BypassState` holds exactly
the mutable pieces the source manipulates:

* `settled` — the promise outcome; JS promises keep their first
  settlement, so later `resolve`/`reject` calls are no-ops;
* `restored` — whether `transport.onmessage` has been reassigned back to
  `originalOnMessage`;
* `timeoutCleared` — whether `clearTimeout` has run (a cleared timer
  never fires);
* `forwarded` — the correlation ids of the messages that reached
  `originalOnMessage`, in arrival order (directly once restored, or
  chained through the interceptor's else-branch before that). -/

inductive BypassOutcome where
  | resolved (raw : JSValue)
  | rejected (msg : String)

structure BypassState where
  settled : Option BypassOutcome
  restored : Bool
  timeoutCleared : Bool
  forwarded : List Int

/-- State after `transport.send(request)` succeeds: interceptor installed,
timer armed, promise pending. -/
def initBypassState : BypassState := ⟨none, false, false, []⟩

/-- An event-loop delivery relevant to one in-flight bypass: an incoming
transport message (with its `id` and, for replies, an `error` message or a
`result` payload), or the 30-second timer firing. -/
inductive BypassEvent where
  | msg (id : Int) (error : Option String) (result : JSValue)
  | timeoutFires

def settleWith (st : BypassState) (o : BypassOutcome) : Option BypassOutcome :=
  match st.settled with
  | some prev => some prev
  | none => some o

/-- One event against the interceptor machinery, exactly as the source
handles it.  The timer callback only rejects — it does not touch
`transport.onmessage` and does not clear anything.  A matching message
clears the timer, restores the original handler, and settles the promise;
a non-matching message is passed to `originalOnMessage` untouched. -/
def stepBypass (reqId : Int) (st : BypassState) : BypassEvent → BypassState
  | .timeoutFires =>
      if st.timeoutCleared then st
      else { st with settled := settleWith st (.rejected "직접 호출 타임아웃") }
  | .msg id error result =>
      if st.restored then { st with forwarded := st.forwarded ++ [id] }
      else if id = reqId then
        { settled :=
            settleWith st
              (match error with
               | some e => .rejected e
               | none => .resolved result),
          restored := true,
          timeoutCleared := true,
          forwarded := st.forwarded }
      else { st with forwarded := st.forwarded ++ [id] }

/-- The interceptor state after the event loop delivers `events`, in
order, to a bypass correlated by `reqId`. -/
def runBypass (reqId : Int) (events : List BypassEvent) : BypassState :=
  events.foldl (stepBypass reqId) initBypassState

/-! ### In-memory event store (server.ts lines 25-76)

`this.events` is a JS `Map` from event id to `{message, streamId}`,
embedded as a list in insertion order (`Map.set` on an existing key
overwrites in place, which `mapSetEvent` reproduces).  Event ids are
produced by `generateEventId` from `Date.now()` and `Math.random()`;
both are embedded as oracle arguments `ts`/`rand`.  `localeCompare` on
these ASCII-alphanumeric ids is modelled as code-point string order. -/

structure EventRecord where
  eventId : String
  streamId : String
  message : Nat
deriving Repr, DecidableEq

def mapSetEvent (store : List EventRecord) (r : EventRecord) : List EventRecord :=
  if store.any (fun x => x.eventId == r.eventId) then
    store.map (fun x => if x.eventId == r.eventId then r else x)
  else store ++ [r]

def generateEventId (streamId ts rand : String) : String :=
  streamId ++ "_" ++ ts ++ "_" ++ rand

/-- `storeEvent`: generate an id and record the message under it. -/
def storeEvent (store : List EventRecord) (streamId : String) (message : Nat)
    (ts rand : String) : List EventRecord × String :=
  let id := generateEventId streamId ts rand
  (mapSetEvent store ⟨id, streamId, message⟩, id)

/-- `getStreamIdFromEventId`: the text before the first `_` of the id. -/
def getStreamIdFromEventId (eventId : String) : String :=
  ((jsSplit '_' eventId).headD "")

def charListLe : List Char → List Char → Bool
  | [], _ => true
  | _ :: _, [] => false
  | a :: as, b :: bs => if a = b then charListLe as bs else decide (a.toNat < b.toNat)

/-- Lexicographic (code-point) comparison of event ids, the embedding of
`a[0].localeCompare(b[0])` used as the sort comparator. -/
def eventIdLe (a b : EventRecord) : Bool :=
  charListLe a.eventId.data b.eventId.data

def insertByIdLe (r : EventRecord) : List EventRecord → List EventRecord
  | [] => [r]
  | x :: xs => if eventIdLe r x then r :: x :: xs else x :: insertByIdLe r xs

/-- `[...this.events.entries()].sort((a, b) => a[0].localeCompare(b[0]))`:
a stable sort by id.  Stable sorting has a unique result for a given
comparator, so this insertion sort is the JS sort. -/
def sortById : List EventRecord → List EventRecord
  | [] => []
  | x :: xs => insertByIdLe x (sortById xs)

/-- The replay loop over the sorted entries: skip foreign streams, start
sending only strictly after the record whose id is `lastEventId`. -/
def replayScan (streamId lastEventId : String) :
    List EventRecord → Bool → List EventRecord
  | [], _ => []
  | r :: rest, found =>
      if r.streamId ≠ streamId then replayScan streamId lastEventId rest found
      else if r.eventId = lastEventId then replayScan streamId lastEventId rest true
      else if found then r :: replayScan streamId lastEventId rest found
      else replayScan streamId lastEventId rest found

/-- `replayEventsAfter`: the pair is (events handed to `send`, in order;
returned stream id).  An empty or unknown `lastEventId`, or an id whose
parsed stream prefix is empty, replays nothing and returns `""`. -/
def replayEventsAfter (store : List EventRecord) (lastEventId : String) :
    List EventRecord × String :=
  if lastEventId = "" ∨ ¬ store.any (fun r => r.eventId == lastEventId) then ([], "")
  else
    if getStreamIdFromEventId lastEventId = "" then ([], "")
    else
      (replayScan (getStreamIdFromEventId lastEventId) lastEventId
        (sortById store) false,
       getStreamIdFromEventId lastEventId)

/-- Modelled from the spec: the records stored for `lastEventId`'s stream
strictly after `lastEventId`, in the order `store` holds them.  Applied to
the raw store this is the recording-order replay the spec demands; applied
to `sortById store` it describes what the code actually sends. -/
def recordedAfter (store : List EventRecord) (lastEventId : String) :
    List EventRecord :=
  match store.find? (fun r => r.eventId == lastEventId) with
  | none => []
  | some rE =>
      ((store.dropWhile (fun r => !(r.eventId == lastEventId))).drop 1).filter
        (fun r => r.streamId == rE.streamId)

/-! ### Session registries and close paths (server.ts lines 779-889)

Both registries are JS `Map`s keyed by session id; session handles are
opaque here.  `Map.delete` never throws and is a no-op on a missing key;
`server.close()` errors are caught and logged on every close path, so the
embedded close operations are total functions on the registry. -/

def mapDelete (m : List (String × Nat)) (sid : String) : List (String × Nat) :=
  m.filter (fun p => !(p.1 == sid))

def mapHas (m : List (String × Nat)) (sid : String) : Bool :=
  m.any (fun p => p.1 == sid)

/-- The SSE `res.on("close")` handler (server.ts lines 800-808): close the
owning endpoint (errors swallowed) and drop the session from the registry. -/
def sseCloseSession (m : List (String × Nat)) (sid : String) : List (String × Nat) :=
  mapDelete m sid

/-- The streamable-HTTP `transport.onclose` handler (server.ts lines
879-889): only if the transport has a session id still present in the
registry does it close the endpoint and deregister; otherwise nothing
happens. -/
def streamCloseSession (m : List (String × Nat)) (sid : Option String) :
    List (String × Nat) :=
  match sid with
  | none => m
  | some s => if mapHas m s then mapDelete m s else m

/-- Registry with one active server `srv` whose single resource has the
uri `file://data`, a local name that itself contains the separator. -/
def connsSep : List Conn := [⟨"srv", true, [], [], ["file://data"]⟩]

/-- Store of claim C3's counterexample: three events stored for stream
`s`, in this recording order — ids `s_1_aa`, then `s_1_zz`, then
`s_1_mm` (equal wall-clock milliseconds, differing random suffixes). -/
def exStore : List EventRecord :=
  (storeEvent ((storeEvent ((storeEvent [] "s" 0 "1" "aa").1) "s" 1 "1" "zz").1)
    "s" 2 "1" "mm").1

/-! ### Generic helper lemmas -/

theorem find?_beq_of_nodup_map {α β : Type} [BEq β] [LawfulBEq β] (f : α → β)
    (l : List α) (a : α) (hnd : (l.map f).Nodup) (ha : a ∈ l) :
    l.find? (fun x => f x == f a) = some a := by
  induction l with
  | nil => cases ha
  | cons b t ih =>
      by_cases hb : f b = f a
      · rw [List.find?_cons_of_pos _ (by simpa using hb)]
        rcases List.mem_cons.mp ha with rfl | hat
        · rfl
        · exfalso
          have : f a ∈ t.map f := List.mem_map_of_mem f hat
          exact (List.nodup_cons.mp hnd).1 (hb ▸ this)
      · rw [List.find?_cons_of_neg _ (by simpa using hb)]
        rcases List.mem_cons.mp ha with rfl | hat
        · exact absurd rfl hb
        · exact ih (List.nodup_cons.mp hnd).2 hat

theorem snd_eq_of_nodup_fst {β : Type} (l : List (String × β)) (n : String) (a b : β)
    (hnd : (l.map Prod.fst).Nodup) (ha : (n, a) ∈ l) (hb : (n, b) ∈ l) : a = b := by
  induction l with
  | nil => cases ha
  | cons p t ih =>
      have hnd' := List.nodup_cons.mp hnd
      rcases List.mem_cons.mp ha with rfl | hat
      · rcases List.mem_cons.mp hb with heq | hbt
        · simpa using heq.symm
        · exact absurd (List.mem_map_of_mem Prod.fst hbt) hnd'.1
      · rcases List.mem_cons.mp hb with rfl | hbt
        · exact absurd (List.mem_map_of_mem Prod.fst hat) hnd'.1
        · exact ih hnd'.2 hat hbt

/-! ### Claim C7 — connect-all failure isolation -/

/-- C7: `connectAllServers` attempts every configured backend
independently.  Whatever the outcomes of all sibling backends (the
quantified `cfg` carries arbitrary failures), a backend whose own connect
attempt succeeds is present and active in the resulting registry, and a
backend whose connect attempt fails is simply absent — one failure never
prevents the others from becoming active. -/
theorem C7_connect_failure_isolation (cfg : List (String × ConnectOutcome)) :
    (∀ n t p r, (n, ConnectOutcome.connected t p r) ∈ cfg →
        ∃ c ∈ connectAllServers cfg, c.serverName = n ∧ c.active = true)
    ∧ ((cfg.map Prod.fst).Nodup →
        ∀ n, (n, ConnectOutcome.connectFail) ∈ cfg →
        ∀ c ∈ connectAllServers cfg, c.serverName ≠ n) := by
  constructor
  · intro n t p r hmem
    refine ⟨⟨n, true, listingOrEmpty t, listingOrEmpty p, listingOrEmpty r⟩, ?_, rfl, rfl⟩
    exact List.mem_filterMap.mpr ⟨(n, .connected t p r), hmem, rfl⟩
  · intro hnd n hfail c hc hname
    rcases List.mem_filterMap.mp hc with ⟨⟨n', o⟩, hmem, hconn⟩
    cases o with
    | connectFail => exact Option.noConfusion hconn
    | connected t p r =>
        simp only [connectToServer, Option.some.injEq] at hconn
        have hsn : c.serverName = n' := by rw [← hconn]
        rw [hsn] at hname
        subst hname
        exact ConnectOutcome.noConfusion
          (snd_eq_of_nodup_fst cfg n' _ _ hnd hmem hfail)

/-- Witness for C7: with one backend whose spawn fails and one that
connects (its prompts listing failing, defaulting to `[]`), the healthy
backend is registered and active, and the failed one is absent. -/
theorem C7_connect_failure_isolation_witness :
    (∃ c ∈ connectAllServers
        [("bad", .connectFail), ("good", .connected (.ok ["t1"]) .failed (.ok []))],
      c.serverName = "good" ∧ c.active = true)
    ∧ (∀ c ∈ connectAllServers
        [("bad", .connectFail), ("good", .connected (.ok ["t1"]) .failed (.ok []))],
      c.serverName ≠ "bad") :=
  ⟨(C7_connect_failure_isolation _).1 "good" (.ok ["t1"]) .failed (.ok [])
      (by decide),
   (C7_connect_failure_isolation _).2 (by decide) "bad" (by decide)⟩

/-! ### Claim C8 — failed schema-bypass recovery is absorbed -/

/-- C8: when the validated call fails Zod validation and the bypass
recovery also fails (error reply or timeout), `callTool` returns normally
— an `Except.ok` carrying a canonical single-text-item envelope whose text
contains the original validation failure's message — instead of
re-raising the recovery failure. -/
theorem C8_recovery_failure_absorbed (actualToolName m : String)
    (direct : DirectOutcome) (hfail : ∀ raw, direct ≠ DirectOutcome.ok raw) :
    ∃ t, callToolResult actualToolName (.zodError m) direct = .ok (textEnvelope t)
      ∧ ∃ pre post, t = pre ++ m ++ post := by
  cases direct with
  | ok raw => exact absurd rfl (hfail raw)
  | errReply e =>
      exact ⟨_, rfl,
        "도구 실행 오류: MCP 응답 형식 문제 (" ++ actualToolName ++ ")\n오류 세부사항: ",
        "", by simp⟩
  | timeout =>
      exact ⟨_, rfl,
        "도구 실행 오류: MCP 응답 형식 문제 (" ++ actualToolName ++ ")\n오류 세부사항: ",
        "", by simp⟩

/-- Witness for C8 at a timed-out recovery for tool `t` after a Zod
failure with message `boom`. -/
theorem C8_recovery_failure_absorbed_witness :
    ∃ t, callToolResult "t" (.zodError "boom") .timeout = .ok (textEnvelope t)
      ∧ ∃ pre post, t = pre ++ "boom" ++ post :=
  C8_recovery_failure_absorbed "t" "boom" .timeout (fun raw h => by cases h)

/-! ### Claim C9 — closing a session twice -/

/-- C9: for both session flavors, the first close deregisters the session
(no entry with its id remains) and a second close attempt is a no-op on
the registry; both close paths are total functions (the source catches
`server.close()` errors and `Map.delete` never throws), so no exception
escapes. -/
theorem C9_close_idempotent (sse stream : List (String × Nat)) (sid : String) :
    sseCloseSession (sseCloseSession sse sid) sid = sseCloseSession sse sid
    ∧ (∀ p ∈ sseCloseSession sse sid, p.1 ≠ sid)
    ∧ streamCloseSession (streamCloseSession stream (some sid)) (some sid) =
        streamCloseSession stream (some sid)
    ∧ (∀ p ∈ streamCloseSession stream (some sid), p.1 ≠ sid) := by
  have hdel : ∀ m : List (String × Nat), ∀ p ∈ mapDelete m sid, p.1 ≠ sid := by
    intro m p hp
    have := (List.mem_filter.mp hp).2
    simpa using this
  have hdel_idem : ∀ m : List (String × Nat),
      mapDelete (mapDelete m sid) sid = mapDelete m sid := by
    intro m
    simp [mapDelete, List.filter_filter]
  have hhas : ∀ m : List (String × Nat), mapHas (mapDelete m sid) sid = false := by
    intro m
    rw [mapHas, List.any_eq_false]
    intro p hp
    simpa using hdel m p hp
  refine ⟨hdel_idem sse, hdel sse, ?_, ?_⟩
  · simp only [streamCloseSession]
    by_cases h : mapHas stream sid = true
    · rw [if_pos h, if_neg (by rw [hhas stream]; exact Bool.false_ne_true)]
    · rw [if_neg h, if_neg h]
  · simp only [streamCloseSession]
    by_cases h : mapHas stream sid = true
    · rw [if_pos h]; exact hdel stream
    · rw [if_neg h]
      intro p hp hps
      exact h (by rw [mapHas, List.any_eq_true]; exact ⟨p, hp, by simp [hps]⟩)

/-- Witness for C9 on two-session registries. -/
theorem C9_close_idempotent_witness :
    sseCloseSession (sseCloseSession [("a", 0), ("b", 1)] "a") "a" =
        sseCloseSession [("a", 0), ("b", 1)] "a"
    ∧ (("b", 1) : String × Nat).1 ≠ "a"
    ∧ streamCloseSession
        (streamCloseSession [("a", 0), ("b", 1)] (some "a")) (some "a") =
        streamCloseSession [("a", 0), ("b", 1)] (some "a") :=
  ⟨(C9_close_idempotent [("a", 0), ("b", 1)] [("a", 0), ("b", 1)] "a").1,
   (C9_close_idempotent [("a", 0), ("b", 1)] [("a", 0), ("b", 1)] "a").2.1
      ("b", 1) (by decide),
   (C9_close_idempotent [("a", 0), ("b", 1)] [("a", 0), ("b", 1)] "a").2.2.1⟩

/-! ### Claim C10 — replay with an empty or unknown last event id -/

/-- C10: `replayEventsAfter` called with an empty `lastEventId`, or with
an id no `storeEvent` call produced (no stored record carries it), sends
no events and returns the empty string. -/
theorem C10_replay_unknown_id (store : List EventRecord) (lastEventId : String)
    (h : lastEventId = "" ∨ ∀ r ∈ store, r.eventId ≠ lastEventId) :
    replayEventsAfter store lastEventId = ([], "") := by
  unfold replayEventsAfter
  rw [if_pos]
  rcases h with h | h
  · exact Or.inl h
  · refine Or.inr ?_
    rw [Bool.not_eq_true, List.any_eq_false]
    intro r hr
    simpa using h r hr

/-- Witness for C10: a store holding one event replays nothing for an id
it never generated. -/
theorem C10_replay_unknown_id_witness :
    replayEventsAfter [⟨"s_1_aa", "s", 0⟩] "s_1_zz" = ([], "") :=
  C10_replay_unknown_id [⟨"s_1_aa", "s", 0⟩] "s_1_zz" (Or.inr (by decide))

/-! ### Claim C1 — bypass timeout and the message interceptor -/

/-- C1 counterexample: when the 30-second timer of a bypass correlated by
id 7 fires, `transport.onmessage` has NOT been reassigned back to the
original handler (the timer callback only rejects), and a late reply
bearing the bypass's own correlation id that arrives after the timeout is
consumed by the still-installed interceptor rather than delivered to the
original handler — refuting both halves of the claim at this input. -/
theorem C1_counterexample :
    (runBypass 7 [.timeoutFires]).restored = false
    ∧ (runBypass 7 [.timeoutFires, .msg 7 none .null]).forwarded = [] :=
  ⟨rfl, rfl⟩

/-- C1 as amended: on timeout the pending recovery is rejected with the
timeout error and the original handler is NOT reinstalled at that moment;
nevertheless every message whose id differs from the recovery's
correlation id — before or after the timeout — is delivered to the
original handler (directly once restored, otherwise chained through the
interceptor), so subsequent normal calls on the connection still
complete; and the original handler is reinstalled when a message bearing
the recovery's correlation id eventually arrives. -/
theorem C1_bypass_timeout_amended (reqId : Int) (events : List BypassEvent) :
    (∀ id err v, id ≠ reqId →
        (runBypass reqId (events ++ [.msg id err v])).forwarded =
          (runBypass reqId events).forwarded ++ [id])
    ∧ ((runBypass reqId events).timeoutCleared = false →
        (runBypass reqId events).settled = none →
        (runBypass reqId (events ++ [.timeoutFires])).settled =
            some (.rejected "직접 호출 타임아웃")
          ∧ (runBypass reqId (events ++ [.timeoutFires])).restored =
            (runBypass reqId events).restored)
    ∧ (runBypass reqId (events ++ [.msg reqId none .null])).restored = true := by
  have hstep : ∀ e, runBypass reqId (events ++ [e]) =
      stepBypass reqId (runBypass reqId events) e := by
    intro e
    unfold runBypass
    rw [List.foldl_append]
    rfl
  refine ⟨?_, ?_, ?_⟩
  · intro id err v hid
    rw [hstep]
    simp only [stepBypass]
    by_cases hr : (runBypass reqId events).restored = true
    · rw [if_pos hr]
    · rw [if_neg hr, if_neg hid]
  · intro htc hs
    rw [hstep]
    simp only [stepBypass]
    rw [if_neg (by rw [htc]; exact Bool.false_ne_true)]
    exact ⟨by simp [settleWith, hs], rfl⟩
  · rw [hstep]
    simp only [stepBypass]
    by_cases hr : (runBypass reqId events).restored = true
    · rw [if_pos hr]; exact hr
    · rw [if_neg hr]; simp

/-- Witness for C1's amended statement, run from a fresh bypass with
correlation id 7: a non-matching message (id 9) is forwarded, a timeout
from the pending state rejects without restoring, and a matching message
restores. -/
theorem C1_bypass_timeout_amended_witness :
    (runBypass 7 ([] ++ [.msg 9 none .null])).forwarded =
        (runBypass 7 []).forwarded ++ [9]
    ∧ (runBypass 7 ([] ++ [.timeoutFires])).settled =
        some (.rejected "직접 호출 타임아웃")
    ∧ (runBypass 7 ([] ++ [.msg 7 none .null])).restored = true :=
  ⟨(C1_bypass_timeout_amended 7 []).1 9 none .null (by decide),
   ((C1_bypass_timeout_amended 7 []).2.1 rfl rfl).1,
   (C1_bypass_timeout_amended 7 []).2.2⟩

/-! ### Claim C5 — normalization is idempotent -/

theorem normalize_textEnvelope (t : String) :
    normalize (textEnvelope t) = textEnvelope t := rfl

theorem normalize_shape (x : JSValue) :
    normalize x = x ∨ ∃ t, normalize x = textEnvelope t := by
  unfold normalize
  split
  · exact .inr ⟨_, rfl⟩
  · split
    · exact .inl rfl
    · cases x with
      | undefined => exact .inr ⟨_, rfl⟩
      | null => exact .inr ⟨_, rfl⟩
      | str s => exact .inr ⟨s, rfl⟩
      | num n => exact .inr ⟨_, rfl⟩
      | bool b => exact .inr ⟨_, rfl⟩
      | arr xs => exact .inr ⟨normalizedObjText (.arr xs), rfl⟩
      | obj fs => exact .inr ⟨normalizedObjText (.obj fs), rfl⟩

/-- C5: the tool-result normalization is idempotent over every
representable reply shape — `normalize (normalize x) = normalize x` for
all `x` — and a value already shaped as the canonical envelope (a
non-empty `content` array) passes through `normalize` unchanged. -/
theorem C5_normalize_idempotent :
    (∀ x, normalize (normalize x) = normalize x)
    ∧ (∀ x, isCanonical x = true → normalize x = x) := by
  constructor
  · intro x
    rcases normalize_shape x with h | ⟨t, h⟩
    · rw [h]
      exact h
    · rw [h]
      exact normalize_textEnvelope t
  · intro x hx
    cases x with
    | obj fs => simp [normalize, isFalsy, hx]
    | undefined => simp [isCanonical, jsGet] at hx
    | null => simp [isCanonical, jsGet] at hx
    | str s => simp [isCanonical, jsGet] at hx
    | num n => simp [isCanonical, jsGet] at hx
    | bool b => simp [isCanonical, jsGet] at hx
    | arr xs => simp [isCanonical, jsGet] at hx

/-- Witness for C5: idempotence at a scalar reply, and pass-through of a
concrete canonical envelope. -/
theorem C5_normalize_idempotent_witness :
    normalize (normalize (.num 42)) = normalize (.num 42)
    ∧ normalize (textEnvelope "ok") = textEnvelope "ok" :=
  ⟨C5_normalize_idempotent.1 (.num 42),
   C5_normalize_idempotent.2 (textEnvelope "ok") (by decide)⟩

/-! ### Claim C6 — tool-call dispatch -/

theorem splitCharList_of_not_mem (sep : Char) (xs : List Char) (h : sep ∉ xs) :
    splitCharList sep xs = [xs] := by
  induction xs with
  | nil => rfl
  | cons c rest ih =>
      have hc : ¬ c = sep := by
        intro hc
        exact h (by rw [← hc]; exact List.mem_cons_self c rest)
      rw [splitCharList, if_neg hc, ih (fun hm => h (List.mem_cons_of_mem c hm))]

theorem splitCharList_append (sep : Char) (xs ys : List Char) (h : sep ∉ xs) :
    splitCharList sep (xs ++ sep :: ys) = xs :: splitCharList sep ys := by
  induction xs with
  | nil => simp [splitCharList]
  | cons c rest ih =>
      have hc : ¬ c = sep := by
        intro hc
        exact h (by rw [← hc]; exact List.mem_cons_self c rest)
      rw [List.cons_append, splitCharList, if_neg hc,
        ih (fun hm => h (List.mem_cons_of_mem c hm))]

theorem data_qualified (A X : String) :
    (A ++ ":" ++ X).data = A.data ++ ':' :: X.data := by
  rw [String.data_append, String.data_append, List.append_assoc]
  rfl

theorem jsSplit_qualified (A X : String) (hA : ':' ∉ A.data) (hX : ':' ∉ X.data) :
    jsSplit ':' (A ++ ":" ++ X) = [A, X] := by
  unfold jsSplit
  rw [data_qualified, splitCharList_append _ _ _ hA, splitCharList_of_not_mem _ _ hX]
  rfl

theorem parseQualified_of_not_mem (A X : String) (hA : ':' ∉ A.data)
    (hX : ':' ∉ X.data) : parseQualified (A ++ ":" ++ X) = (A, X) := by
  unfold parseQualified
  rw [jsSplit_qualified A X hA hX]
  rfl

theorem containsChar_qualified (A X : String) :
    containsChar (A ++ ":" ++ X) ':' = true := by
  unfold containsChar
  rw [data_qualified]
  exact List.elem_iff.mpr (List.mem_append_right _ (List.mem_cons_self _ _))

theorem containsChar_eq_false_of_not_mem (s : String) (c : Char) (h : c ∉ s.data) :
    containsChar s c = false := by
  unfold containsChar
  exact Bool.eq_false_iff.mpr (fun hc => h (List.elem_iff.mp hc))

/-- C6: tool dispatch.  (a) A qualified name `A:X` (with `:`-free `A` and
`X`) always dispatches to backend `A`'s tool `X` whenever `A` is a
registered active connection, irrespective of any other connection also
defining a tool named `X`; (b) an unqualified name dispatches to the
first active connection in registration order whose cached tool list
contains it; (c) when no active connection's cached list contains the
name, resolution fails with the NotFound error — a thrown `Error` the
request handler catches, so the gateway never crashes. -/
theorem C6_tool_dispatch (conns : List Conn) (A X : String)
    (hA : ':' ∉ A.data) (hX : ':' ∉ X.data)
    (hnames : (conns.map Conn.serverName).Nodup) :
    (∀ c, mapGet conns A = some c → c.active = true →
        resolveToolTarget conns (A ++ ":" ++ X) = .ok (A, X))
    ∧ (∀ c, conns.find? (fun c => c.active && c.tools.contains X) = some c →
        resolveToolTarget conns X = .ok (c.serverName, X))
    ∧ ((∀ c ∈ conns, c.active = true → X ∉ c.tools) →
        resolveToolTarget conns X = .error .notFound) := by
  have hnc : ¬ containsChar X ':' = true := by
    rw [containsChar_eq_false_of_not_mem X ':' hX]
    exact Bool.false_ne_true
  refine ⟨?_, ?_, ?_⟩
  · intro c hget hactive
    have hsn : c.serverName = A := by
      have := List.find?_some hget
      simpa using this
    unfold resolveToolTarget
    rw [if_pos (containsChar_qualified A X), parseQualified_of_not_mem A X hA hX]
    simp only [hget]
    rw [if_pos hactive, hsn]
  · intro c hfind
    have hmem : c ∈ conns := List.mem_of_find?_eq_some hfind
    have hprop := List.find?_some hfind
    rw [Bool.and_eq_true] at hprop
    have hget : mapGet conns c.serverName = some c :=
      find?_beq_of_nodup_map Conn.serverName conns c hnames hmem
    unfold resolveToolTarget
    rw [if_neg hnc]
    simp only [hfind, hget]
    rw [if_pos hprop.1]
  · intro hnone
    have hfind : conns.find? (fun c => c.active && c.tools.contains X) = none := by
      rw [List.find?_eq_none]
      intro c hc hprop
      rw [Bool.and_eq_true] at hprop
      have hx : X ∈ c.tools := by
        have := hprop.2
        simpa [List.elem_iff] using this
      exact hnone c hc hprop.1 hx
    unfold resolveToolTarget
    rw [if_neg hnc]
    simp only [hfind]

/-- Witness for C6 on a registry of two active servers that both define a
tool named `t`: the qualified name `b:t` dispatches to server `b`, the
unqualified name `t` dispatches to the first registrant `a`, and an
unknown name fails with NotFound. -/
theorem C6_tool_dispatch_witness :
    resolveToolTarget [⟨"a", true, ["t"], [], []⟩, ⟨"b", true, ["t"], [], []⟩]
        ("b" ++ ":" ++ "t") = .ok ("b", "t")
    ∧ resolveToolTarget [⟨"a", true, ["t"], [], []⟩, ⟨"b", true, ["t"], [], []⟩]
        "t" = .ok ("a", "t")
    ∧ resolveToolTarget [⟨"a", true, ["t"], [], []⟩, ⟨"b", true, ["t"], [], []⟩]
        "zz" = .error .notFound :=
  ⟨(C6_tool_dispatch _ "b" "t" (by decide) (by decide) (by decide)).1
      ⟨"b", true, ["t"], [], []⟩ (by decide) rfl,
   (C6_tool_dispatch _ "a" "t" (by decide) (by decide) (by decide)).2.1
      ⟨"a", true, ["t"], [], []⟩ (by decide),
   (C6_tool_dispatch _ "a" "zz" (by decide) (by decide) (by decide)).2.2
      (by decide)⟩

/-! ### Claim C2 — the separator and local names containing `:` -/

/-- C2 evaluated at the failing input: aggregation advertises the
qualified uri `srv:file://data`, but resolving that very name parses it
with `split(':', 2)`, which keeps only the first two full-split segments
— the local name is truncated to `file` instead of the advertised
`file://data` that a first-occurrence split (third conjunct) recovers.
The same `split(':', 2)` line is shared by `callTool` and `getPrompt`. -/
theorem C2_qualified_name_truncated :
    getUnifiedResources connsSep = [("srv", "file://data", "srv:file://data")]
    ∧ resolveResourceTarget connsSep "srv:file://data" = .ok ("srv", "file")
    ∧ splitOnFirst "srv:file://data" = ("srv", "file://data")
    ∧ parseQualified "srv:file://data" ≠ splitOnFirst "srv:file://data" := by
  refine ⟨by decide, rfl, by decide, by decide⟩

/-! ### Claim C4 — field priority of the normalizer on structured replies -/

theorem scanFields_of_skipped (r : JSValue) (pre rest : List String)
    (h : ∀ g ∈ pre, strOrStructText (jsGet r g) = none) :
    scanFields r (pre ++ rest) = scanFields r rest := by
  induction pre with
  | nil => rfl
  | cons f fs ih =>
      rw [List.cons_append, scanFields, h f (List.mem_cons_self f fs)]
      exact ih (fun g hg => h g (List.mem_cons_of_mem f hg))

theorem normalize_obj_eq (fs : List (String × JSValue))
    (hcanon : isCanonical (.obj fs) = false) :
    normalize (.obj fs) = textEnvelope (normalizedObjText (.obj fs)) := by
  unfold normalize
  rw [if_neg (show ¬ isFalsy (.obj fs) = true from Bool.false_ne_true),
    if_neg (by rw [hcanon]; exact Bool.false_ne_true)]
  rfl

/-- C4 as amended: on a non-canonical structured reply the normalizer
scans `text, content, message, result, output, transcript, description,
summary, response, value, body, data` in order and uses the first field
whose present, non-null value is a string (verbatim) or structured
(pretty-printed); a field holding any other non-null scalar (number,
boolean) is skipped, and the scan continues past it.  When no field
qualifies — or when the selected text is the empty string, which the
falsy re-check sends to the fallback — the whole object is
pretty-printed. -/
theorem C4_field_priority (fs : List (String × JSValue))
    (hcanon : isCanonical (.obj fs) = false) :
    (∀ pre f post s, textFields = pre ++ f :: post →
        (∀ g ∈ pre, strOrStructText (jsGet (.obj fs) g) = none) →
        strOrStructText (jsGet (.obj fs) f) = some s → s ≠ "" →
        normalize (.obj fs) = textEnvelope s)
    ∧ ((∀ g ∈ textFields, strOrStructText (jsGet (.obj fs) g) = none) →
        normalize (.obj fs) = textEnvelope (stringifyVal (.obj fs) 0))
    ∧ (∀ pre f post, textFields = pre ++ f :: post →
        (∀ g ∈ pre, strOrStructText (jsGet (.obj fs) g) = none) →
        strOrStructText (jsGet (.obj fs) f) = some "" →
        normalize (.obj fs) = textEnvelope (stringifyVal (.obj fs) 0)) := by
  refine ⟨?_, ?_, ?_⟩
  · intro pre f post s hsplit hpre hf hs
    rw [normalize_obj_eq fs hcanon]
    unfold normalizedObjText
    rw [hsplit, scanFields_of_skipped _ _ _ hpre, scanFields, hf]
    simp only [Option.getD_some]
    rw [if_neg hs]
  · intro hall
    rw [normalize_obj_eq fs hcanon]
    unfold normalizedObjText
    have hscan : scanFields (.obj fs) textFields = none := by
      have : textFields = textFields ++ [] := by simp
      rw [this, scanFields_of_skipped _ _ _ (by simpa using hall)]
      rfl
    rw [hscan]
    rfl
  · intro pre f post hsplit hpre hf
    rw [normalize_obj_eq fs hcanon]
    unfold normalizedObjText
    rw [hsplit, scanFields_of_skipped _ _ _ hpre, scanFields, hf]
    rfl

/-- C4 counterexample: the reply `.obj [("message", .str "")]` has
`message` as its first present non-null field with the string value `""`,
so the claim prescribes a canonical text item with text `""` — but the
code's falsy re-check of the chosen text discards it and pretty-prints
the whole object instead. -/
theorem C4_field_priority_counterexample :
    normalize (.obj [("message", .str "")]) ≠ textEnvelope "" := by
  intro h
  exact absurd (congrArg envText h) (by decide)

/-- Witness for C4's amended statement: `message` wins on
`.obj [("message", .str "hello")]` because `text` and `content` are
absent, and `.obj [("foo", .str "bar")]` (no recognized field) falls back
to the pretty-printed whole object. -/
theorem C4_field_priority_witness :
    normalize (.obj [("message", .str "hello")]) = textEnvelope "hello"
    ∧ normalize (.obj [("foo", .str "bar")]) =
        textEnvelope (stringifyVal (.obj [("foo", .str "bar")]) 0) :=
  ⟨(C4_field_priority [("message", .str "hello")] (by decide)).1
      ["text", "content"] "message"
      ["result", "output", "transcript", "description", "summary",
       "response", "value", "body", "data"] "hello"
      (by decide) (by decide) (by decide) (by decide),
   (C4_field_priority [("foo", .str "bar")] (by decide)).2.1 (by decide)⟩

/-! ### Claim C3 — replay order of the in-memory event store -/

theorem eq_of_nodup_map {α β : Type} (f : α → β) (l : List α) (a b : α)
    (hnd : (l.map f).Nodup) (ha : a ∈ l) (hb : b ∈ l) (hf : f a = f b) :
    a = b := by
  induction l with
  | nil => cases ha
  | cons p t ih =>
      have hnd' := List.nodup_cons.mp hnd
      rcases List.mem_cons.mp ha with rfl | hat
      · rcases List.mem_cons.mp hb with rfl | hbt
        · rfl
        · exact absurd (hf ▸ List.mem_map_of_mem f hbt) hnd'.1
      · rcases List.mem_cons.mp hb with rfl | hbt
        · exact absurd (hf ▸ List.mem_map_of_mem f hat) hnd'.1
        · exact ih hnd'.2 hat hbt

theorem insertByIdLe_perm (r : EventRecord) (l : List EventRecord) :
    List.Perm (insertByIdLe r l) (r :: l) := by
  induction l with
  | nil => exact List.Perm.refl _
  | cons x xs ih =>
      rw [insertByIdLe]
      by_cases h : eventIdLe r x = true
      · rw [if_pos h]
      · rw [if_neg h]
        exact (ih.cons x).trans (List.Perm.swap r x xs)

theorem sortById_perm (l : List EventRecord) : List.Perm (sortById l) l := by
  induction l with
  | nil => exact List.Perm.refl _
  | cons x xs ih => exact (insertByIdLe_perm x (sortById xs)).trans (ih.cons x)

theorem replayScan_true_of_no_id (s E : String) (l : List EventRecord)
    (h : ∀ r ∈ l, r.eventId ≠ E) :
    replayScan s E l true = l.filter (fun r => r.streamId == s) := by
  induction l with
  | nil => rfl
  | cons r rest ih =>
      have hid : ¬ r.eventId = E := h r (List.mem_cons_self r rest)
      have ih' := ih (fun x hx => h x (List.mem_cons_of_mem r hx))
      rw [replayScan, List.filter_cons]
      by_cases hst : r.streamId = s
      · rw [if_neg (not_not_intro hst), if_neg hid, if_pos rfl,
          if_pos (by simp [hst]), ih']
      · rw [if_pos hst, if_neg (by simp [hst]), ih']

theorem replayScan_false_eq (s E : String) (l : List EventRecord)
    (hcons : ∀ r ∈ l, r.eventId = E → r.streamId = s)
    (hnd : (l.map EventRecord.eventId).Nodup) :
    replayScan s E l false =
      ((l.dropWhile (fun r => !(r.eventId == E))).drop 1).filter
        (fun r => r.streamId == s) := by
  induction l with
  | nil => rfl
  | cons r rest ih =>
      have hnd' := List.nodup_cons.mp hnd
      by_cases hid : r.eventId = E
      · have hst : r.streamId = s := hcons r (List.mem_cons_self r rest) hid
        have hnone : ∀ x ∈ rest, x.eventId ≠ E := by
          intro x hx hxe
          exact hnd'.1 (hid ▸ hxe ▸ List.mem_map_of_mem EventRecord.eventId hx)
        rw [replayScan, if_neg (not_not_intro hst), if_pos hid,
          List.dropWhile_cons, if_neg (by simp [hid]), List.drop_one,
          List.tail_cons]
        exact replayScan_true_of_no_id s E rest hnone
      · have ih' := ih
          (fun x hx hxe => hcons x (List.mem_cons_of_mem r hx) hxe) hnd'.2
        rw [List.dropWhile_cons, if_pos (by simp [hid])]
        by_cases hst : r.streamId = s
        · rw [replayScan, if_neg (not_not_intro hst), if_neg hid,
            if_neg Bool.false_ne_true, ih']
        · rw [replayScan, if_pos hst, ih']

/-- C3 counterexample: the claim says replaying `exStore` after
`s_1_zz` sends exactly the events recorded after it, i.e. the `s_1_mm`
record (`recordedAfter` applied to the raw store); the code, which scans
the entries sorted lexicographically by id, sends nothing because
`s_1_mm` sorts before `s_1_zz`. -/
theorem C3_replay_counterexample :
    (replayEventsAfter exStore "s_1_zz").1 ≠ recordedAfter exStore "s_1_zz" := by
  decide

/-- C3 as amended: for a stored id `E = rE.eventId` (ids pairwise
distinct, `E` non-empty, and its parsed stream prefix matching the
record's stream, as ids built by `generateEventId` from `_`-free stream
ids satisfy), `replayEventsAfter` sends exactly the events of `rE`'s
stream that follow `rE` in the LEXICOGRAPHICALLY-SORTED-BY-ID event list
— `recordedAfter (sortById store)` — not the recording-order suffix, and
returns the stream id.  Events of every other stream are excluded by the
filter inside `recordedAfter`. -/
theorem C3_replay_follows_sorted_order (store : List EventRecord)
    (rE : EventRecord) (hmem : rE ∈ store)
    (hnd : (store.map EventRecord.eventId).Nodup)
    (hE : rE.eventId ≠ "")
    (hparse : getStreamIdFromEventId rE.eventId = rE.streamId)
    (hsne : rE.streamId ≠ "") :
    replayEventsAfter store rE.eventId =
      (recordedAfter (sortById store) rE.eventId, rE.streamId) := by
  have hany : store.any (fun r => r.eventId == rE.eventId) = true := by
    rw [List.any_eq_true]
    exact ⟨rE, hmem, by simp⟩
  have hcond : ¬ (rE.eventId = "" ∨
      ¬ store.any (fun r => r.eventId == rE.eventId) = true) := by
    rintro (h | h)
    · exact hE h
    · exact h hany
  have hperm := sortById_perm store
  have hnd' : ((sortById store).map EventRecord.eventId).Nodup :=
    ((hperm.map EventRecord.eventId).nodup_iff).mpr hnd
  have hmem' : rE ∈ sortById store := hperm.mem_iff.mpr hmem
  have hfind : (sortById store).find? (fun x => x.eventId == rE.eventId) =
      some rE :=
    find?_beq_of_nodup_map EventRecord.eventId (sortById store) rE hnd' hmem'
  have hcons : ∀ r ∈ sortById store,
      r.eventId = rE.eventId → r.streamId = rE.streamId := by
    intro r hr hid
    rw [eq_of_nodup_map EventRecord.eventId (sortById store) r rE hnd' hr hmem' hid]
  unfold replayEventsAfter
  rw [if_neg hcond, hparse, if_neg hsne]
  unfold recordedAfter
  rw [hfind]
  rw [replayScan_false_eq rE.streamId rE.eventId (sortById store) hcons hnd']

/-- Witness for C3's amended statement at `exStore` and its first stored
record. -/
theorem C3_replay_follows_sorted_order_witness :
    replayEventsAfter exStore "s_1_aa" =
      (recordedAfter (sortById exStore) "s_1_aa", "s") :=
  C3_replay_follows_sorted_order exStore ⟨"s_1_aa", "s", 0⟩ (by decide)
    (by decide) (by decide) (by decide) (by decide)

end HamaProxy
